import Mathlib

/-!
Verification development for the Academic-Assignment-Tracker import pipeline.

The TypeScript sources embedded here (shallowly, over `List Char`):
  - src/lib/spreadsheet-parser.ts   (parseDate, detectDelimiter, parseSpreadsheet)
  - the "AddAssignment" component   (extractDate, extractClassCode, detectType,
                                     typePriority, parseTextToAssignments)
  - src/components/import-data.tsx  (handleImport: merge / replace semantics)

Ambient impurity of the source (`new Date()`, `Date.now()`, `Math.random()`)
is modelled by an explicit `Env` record supplied to the embedded functions.
JavaScript regular expressions are embedded as hand-written matchers that
reproduce the leftmost-match, ordered-alternation, greedy-with-backtracking
semantics of the concrete patterns appearing in the source.
-/

namespace Tracker

/-- ASCII decimal digit, as in the regex class `\d`. -/
def isDigitChar (c : Char) : Bool :=
  c.isDigit

/-- ASCII letter, as in the regex class `[A-Za-z]`. -/
def isLetterChar (c : Char) : Bool :=
  c.isAlpha

/-- JS regex word character `\w` = `[A-Za-z0-9_]` (ASCII fragment). -/
def isWordChar (c : Char) : Bool :=
  c.isAlpha || c.isDigit || c = '_'

/-- JS whitespace `\s` (ASCII fragment: space, tab, LF, VT, FF, CR);
also the set trimmed by `String.prototype.trim` on ASCII input. -/
def isSpaceChar (c : Char) : Bool :=
  c = ' ' || c = '\t' || c = '\n' || c = '\x0b' || c = '\x0c' || c = '\r'

/-- ASCII lowercasing of one character (`toLowerCase` on ASCII input). -/
def lowerChar (c : Char) : Char :=
  if 'A' ≤ c ∧ c ≤ 'Z' then Char.ofNat (c.toNat + 32) else c

/-- ASCII uppercasing of one character (`toUpperCase` on ASCII input). -/
def upperChar (c : Char) : Char :=
  if 'a' ≤ c ∧ c ≤ 'z' then Char.ofNat (c.toNat - 32) else c

/-- `s.toLowerCase()` on ASCII input. -/
def lowerStr (s : List Char) : List Char :=
  s.map lowerChar

/-- `s.toUpperCase()` on ASCII input. -/
def upperStr (s : List Char) : List Char :=
  s.map upperChar

/-- `s.trim()`: strip leading and trailing whitespace. -/
def trimStr (s : List Char) : List Char :=
  ((s.dropWhile isSpaceChar).reverse.dropWhile isSpaceChar).reverse

/-- `s.replace(/\s+/g, "")`: delete every whitespace character. -/
def stripWs (s : List Char) : List Char :=
  s.filter (fun c => !isSpaceChar c)

/-- Does `s` start with `pre` (exact characters)? -/
def startsWith : List Char → List Char → Bool
  | _, [] => true
  | [], _ :: _ => false
  | c :: cs, p :: ps => c = p && startsWith cs ps

/-- Case-insensitive prefix test returning the remainder on success
(used for the case-insensitive regex alternatives). -/
def stripCIP : List Char → List Char → Option (List Char)
  | s, [] => some s
  | [], _ :: _ => none
  | c :: cs, p :: ps => if lowerChar c = lowerChar p then stripCIP cs ps else none

/-- `hay.includes(needle)`: substring containment. -/
def containsSub (hay needle : List Char) : Bool :=
  match hay with
  | [] => startsWith [] needle
  | _ :: rest => startsWith hay needle || containsSub rest needle

/-- `hay.indexOf(needle)`: index of the first occurrence, if any. -/
def indexOfSub (hay needle : List Char) : Option Nat :=
  match hay with
  | [] => if startsWith [] needle then some 0 else none
  | _ :: rest =>
    if startsWith hay needle then some 0
    else (indexOfSub rest needle).map (· + 1)

/-- Split on the regex `/\r?\n/` (as `text.split(/\r?\n/)` does). -/
def splitNL : List Char → List (List Char)
  | [] => [[]]
  | '\r' :: '\n' :: rest => [] :: splitNL rest
  | '\n' :: rest => [] :: splitNL rest
  | c :: rest =>
    match splitNL rest with
    | l :: ls => (c :: l) :: ls
    | [] => [[c]]

/-- Split on one literal character (as `text.split("\n")` / `line.split(",")`). -/
def splitOnChar (sep : Char) : List Char → List (List Char)
  | [] => [[]]
  | c :: rest =>
    if c = sep then [] :: splitOnChar sep rest
    else
      match splitOnChar sep rest with
      | l :: ls => (c :: l) :: ls
      | [] => [[c]]

/-- `parseInt` on a nonempty all-digit string. -/
def natOfDigits (s : List Char) : Nat :=
  s.foldl (fun a c => a * 10 + (c.toNat - 48)) 0

/-- Decimal rendering of a natural number (`String(n)`). -/
def natChars (n : Nat) : List Char :=
  (Nat.repr n).data

/-- `s.padStart(2, "0")`. -/
def pad2 (s : List Char) : List Char :=
  if s.length ≥ 2 then s else List.replicate (2 - s.length) '0' ++ s

/-! ## Regex machinery

Each JS regex appearing in the source is embedded as a positional matcher
`matchXAt (prev : Option Char) (s : List Char) : Option _` trying to match at
the start of `s` (with `prev` the character just before, for `\b` tests), plus
generic scanners reproducing leftmost-match search and global replace. -/

/-- The `\b` precondition at the start of a pattern whose first character is a
word character: the previous character (if any) must not be a word character. -/
def boundaryBefore (prev : Option Char) : Bool :=
  match prev with
  | none => true
  | some c => !isWordChar c

/-- The `\b` condition at a point whose preceding (last consumed) character is
a word character: the next character must be absent or not a word character. -/
def endBoundaryAfterWord (rest : List Char) : Bool :=
  match rest with
  | [] => true
  | c :: _ => !isWordChar c

/-- Leftmost-match search: try the positional matcher at every position from
the left, advancing one character at a time, as `String.prototype.match` does. -/
def findScanAux (matchAt : Option Char → List Char → Option α) :
    Option Char → List Char → Option α
  | _, [] => none
  | prev, c :: cs =>
    match matchAt prev (c :: cs) with
    | some r => some r
    | none => findScanAux matchAt (some c) cs

/-- Leftmost-match search from the start of the string. -/
def findScan (matchAt : Option Char → List Char → Option α) (s : List Char) :
    Option α :=
  findScanAux matchAt none s

/-- Global replace with the empty string (`s.replace(re, "")` with `g` flag):
delete every (leftmost-first, non-overlapping) match, resuming after each
match.  `matchLen` returns the length of a match at the current position.
Recursion is structural on a fuel argument; every step consumes at least one
character, so fuel equal to the input length never runs out. -/
def replaceScanAux (matchLen : Option Char → List Char → Option Nat) :
    Nat → Option Char → List Char → List Char
  | 0, _, l => l
  | _ + 1, _, [] => []
  | fuel + 1, prev, c :: cs =>
    match matchLen prev (c :: cs) with
    | some (n + 1) =>
      replaceScanAux matchLen fuel ((c :: cs).get? n) ((c :: cs).drop (n + 1))
    | _ => c :: replaceScanAux matchLen fuel (some c) cs

/-- Global replace-with-empty from the start of the string. -/
def replaceScan (matchLen : Option Char → List Char → Option Nat) (s : List Char) :
    List Char :=
  replaceScanAux matchLen s.length none s

/-- Descending list of permissible repeat counts for a greedy bounded repeat
`X{lo,hi}` applied to a homogeneous run of length `runLen` (greedy: longest
first, backtracking to shorter). -/
def lenChoices (lo hi runLen : Nat) : List Nat :=
  ((List.range (min hi runLen + 1)).filter (fun k => lo ≤ k)).reverse

/-! ### Month-name date patterns

The source uses (case-insensitively) the alternation
`jan(?:uary)?|feb(?:ruary)?|mar(?:ch)?|apr(?:il)?|may|jun(?:e)?|jul(?:y)?|
 aug(?:ust)?|sep(?:t(?:ember)?)?|oct(?:ober)?|nov(?:ember)?|dec(?:ember)?`
followed by `\s+(\d{1,2})(?:st|nd|rd|th)?` and then, depending on the pattern,
nothing, an optional year `,?\s*(\d{4})?`, or a required year `,?\s*(\d{4})`,
all ending with `\b`.  Month indices are 0-based (both sources' month tables
agree: the tabular parser's 1-based table equals the 0-based index plus 1). -/

/-- Month alternatives in the regex's alternation order, each with its
greedy-ordered list of spellings (longest first) and 0-based month index. -/
def monthAlts : List (List (List Char) × Nat) :=
  [ ([("january".data), ("jan".data)], 0)
  , ([("february".data), ("feb".data)], 1)
  , ([("march".data), ("mar".data)], 2)
  , ([("april".data), ("apr".data)], 3)
  , ([("may".data)], 4)
  , ([("june".data), ("jun".data)], 5)
  , ([("july".data), ("jul".data)], 6)
  , ([("august".data), ("aug".data)], 7)
  , ([("september".data), ("sept".data), ("sep".data)], 8)
  , ([("october".data), ("oct".data)], 9)
  , ([("november".data), ("nov".data)], 10)
  , ([("december".data), ("dec".data)], 11) ]

/-- Which month/day pattern variant: with required year group, with optional
year group, or day-only (no comma/year part). -/
inductive MonthMode where
  | reqYear
  | optYear
  | noYear
deriving DecidableEq

/-- Backtracking state while matching the tail of a month pattern: remaining
input, whether the last consumed character is a word character (for the final
`\b`), and the number of characters consumed so far. -/
structure MState where
  rest : List Char
  lastW : Bool
  len : Nat

/-- Result of a month-pattern match: 0-based month index, raw day digits, raw
year digits when the year group matched, and the total matched length. -/
structure MonthMatch where
  midx : Nat
  dayRaw : List Char
  yearRaw : Option (List Char)
  len : Nat
deriving DecidableEq

/-- Greedy choices for the optional ordinal suffix `(?:st|nd|rd|th)?`
(alternatives in regex order, then the empty option). -/
def ordChoices (st : MState) : List MState :=
  ((([("st".data), ("nd".data), ("rd".data), ("th".data)]).filterMap
      (fun o => (stripCIP st.rest o).map
        (fun r => MState.mk r true (st.len + 2))))) ++ [st]

/-- Greedy choices for `,?`: with the comma first, then without. -/
def commaChoices (st : MState) : List MState :=
  (match st.rest with
   | ',' :: r => [MState.mk r false (st.len + 1)]
   | _ => []) ++ [st]

/-- Greedy choices for `\s*`: consume from the maximal whitespace run down to
nothing. -/
def wsChoices (st : MState) : List MState :=
  let ws := st.rest.takeWhile isSpaceChar
  let r := st.rest.dropWhile isSpaceChar
  (lenChoices 0 ws.length ws.length).map
    (fun j => MState.mk (ws.drop j ++ r) (if j = 0 then st.lastW else false) (st.len + j))

/-- The final `\b` of a pattern, using the tracked last-character class. -/
def endBdry (st : MState) : Bool :=
  st.lastW != (match st.rest with
               | [] => false
               | c :: _ => isWordChar c)

/-- Greedy choices for the year group: `(\d{4})` requires exactly four digits;
the optional form also offers the empty option. -/
def yearChoices (mode : MonthMode) (st : MState) : List (Option (List Char) × MState) :=
  let withYear : List (Option (List Char) × MState) :=
    let y := st.rest.take 4
    if y.length = 4 ∧ y.all isDigitChar then
      [(some y, MState.mk (st.rest.drop 4) true (st.len + 4))]
    else []
  match mode with
  | MonthMode.reqYear => withYear
  | MonthMode.optYear => withYear ++ [(none, st)]
  | MonthMode.noYear => [(none, st)]

/-- Greedy choices for the day group `(\d{1,2})`: two digits first, then one. -/
def dayChoices (run : List Char) : List (List Char × Nat) :=
  if run.length ≥ 2 then [(run.take 2, 2), (run.take 1, 1)]
  else if run.length = 1 then [(run, 1)]
  else []

/-- Match the tail of a month pattern (after month name, `\s+`, and the day
digits run have been located), exploring the greedy choice points in regex
backtracking order. -/
def contAfterDay (mode : MonthMode) (midx : Nat) (day : List Char) (st0 : MState) :
    Option MonthMatch :=
  match mode with
  | MonthMode.noYear =>
    (ordChoices st0).findSome? (fun st1 =>
      if endBdry st1 then some (MonthMatch.mk midx day none st1.len) else none)
  | _ =>
    (ordChoices st0).findSome? (fun st1 =>
      (commaChoices st1).findSome? (fun st2 =>
        (wsChoices st2).findSome? (fun st3 =>
          (yearChoices mode st3).findSome? (fun yst =>
            if endBdry yst.2 then some (MonthMatch.mk midx day yst.1 yst.2.len)
            else none))))

/-- Positional matcher for the month/day(/year) patterns. -/
def matchMonthAt (mode : MonthMode) (prev : Option Char) (s : List Char) :
    Option MonthMatch :=
  if !boundaryBefore prev then none
  else
    monthAlts.findSome? (fun alt =>
      alt.1.findSome? (fun form =>
        match stripCIP s form with
        | none => none
        | some r1 =>
          let ws := r1.takeWhile isSpaceChar
          let r2 := r1.dropWhile isSpaceChar
          if ws.isEmpty then none
          else
            let drun := r2.takeWhile isDigitChar
            let r3 := r2.dropWhile isDigitChar
            (dayChoices drun).findSome? (fun dc =>
              contAfterDay mode alt.2 dc.1
                (MState.mk (drun.drop dc.2 ++ r3) true
                  (form.length + ws.length + dc.2)))))

/-! ### Numeric date patterns and course-code patterns -/

/-- One of the date separators `[\/\-]`. -/
def isDateSep (c : Char) : Bool :=
  c = '/' || c = '-'

/-- Positional matcher for `\b(\d{1,2})[\/\-](\d{1,2})[\/\-](\d{2,4})\b`
(part of the free-text date extractor).  Returns raw `(m, d, y)` digit groups
and the matched length. -/
def matchSlashFullAt (prev : Option Char) (s : List Char) :
    Option (List Char × List Char × List Char × Nat) :=
  if !boundaryBefore prev then none
  else
    let r1run := s.takeWhile isDigitChar
    let r1 := s.dropWhile isDigitChar
    (lenChoices 1 2 r1run.length).findSome? (fun k1 =>
      match r1run.drop k1 ++ r1 with
      | c1 :: rest2 =>
        if isDateSep c1 then
          let r2run := rest2.takeWhile isDigitChar
          let r2 := rest2.dropWhile isDigitChar
          (lenChoices 1 2 r2run.length).findSome? (fun k2 =>
            match r2run.drop k2 ++ r2 with
            | c2 :: rest3 =>
              if isDateSep c2 then
                let r3run := rest3.takeWhile isDigitChar
                let r3 := rest3.dropWhile isDigitChar
                (lenChoices 2 4 r3run.length).findSome? (fun k3 =>
                  if endBoundaryAfterWord (r3run.drop k3 ++ r3) then
                    some (r1run.take k1, r2run.take k2, r3run.take k3,
                          k1 + 1 + k2 + 1 + k3)
                  else none)
              else none
            | [] => none)
        else none
      | [] => none)

/-- Positional matcher for `\b(\d{1,2})\/(\d{1,2})\b(?!\/\d)` (month/day with
no year, with a negative lookahead rejecting a following `/digit`). -/
def matchSlashShortAt (prev : Option Char) (s : List Char) :
    Option (List Char × List Char × Nat) :=
  if !boundaryBefore prev then none
  else
    let r1run := s.takeWhile isDigitChar
    let r1 := s.dropWhile isDigitChar
    (lenChoices 1 2 r1run.length).findSome? (fun k1 =>
      match r1run.drop k1 ++ r1 with
      | '/' :: rest2 =>
        let r2run := rest2.takeWhile isDigitChar
        let r2 := rest2.dropWhile isDigitChar
        (lenChoices 1 2 r2run.length).findSome? (fun k2 =>
          let rest := r2run.drop k2 ++ r2
          let lookaheadOk :=
            match rest with
            | '/' :: d :: _ => !isDigitChar d
            | _ => true
          if endBoundaryAfterWord rest && lookaheadOk then
            some (r1run.take k1, r2run.take k2, k1 + 1 + k2)
          else none)
      | _ => none)

/-- Positional matcher for `\b(\d{4})[\/\-](\d{1,2})[\/\-](\d{1,2})\b` (ISO
date, unanchored).  Returns raw `(y, m, d)` digit groups and the length. -/
def matchIsoUnAt (prev : Option Char) (s : List Char) :
    Option (List Char × List Char × List Char × Nat) :=
  if !boundaryBefore prev then none
  else
    let yrun := s.takeWhile isDigitChar
    let r1 := s.dropWhile isDigitChar
    if yrun.length < 4 then none
    else
      match yrun.drop 4 ++ r1 with
      | c1 :: rest2 =>
        if isDateSep c1 then
          let mrun := rest2.takeWhile isDigitChar
          let r2 := rest2.dropWhile isDigitChar
          (lenChoices 1 2 mrun.length).findSome? (fun k2 =>
            match mrun.drop k2 ++ r2 with
            | c2 :: rest3 =>
              if isDateSep c2 then
                let drun := rest3.takeWhile isDigitChar
                let r3 := rest3.dropWhile isDigitChar
                (lenChoices 1 2 drun.length).findSome? (fun k3 =>
                  if endBoundaryAfterWord (drun.drop k3 ++ r3) then
                    some (yrun.take 4, mrun.take k2, drun.take k3, 4 + 1 + k2 + 1 + k3)
                  else none)
              else none
            | [] => none)
        else none
      | [] => none

/-- Positional matcher (length only) for the title-stripping pattern
`\b\d{1,2}[\/\-]\d{1,2}(?:[\/\-]\d{2,4})?\b`. -/
def matchTitleNumericAt (prev : Option Char) (s : List Char) : Option Nat :=
  if !boundaryBefore prev then none
  else
    let r1run := s.takeWhile isDigitChar
    let r1 := s.dropWhile isDigitChar
    (lenChoices 1 2 r1run.length).findSome? (fun k1 =>
      match r1run.drop k1 ++ r1 with
      | c1 :: rest2 =>
        if isDateSep c1 then
          let r2run := rest2.takeWhile isDigitChar
          let r2 := rest2.dropWhile isDigitChar
          (lenChoices 1 2 r2run.length).findSome? (fun k2 =>
            let rest3 := r2run.drop k2 ++ r2
            let withYear : Option Nat :=
              match rest3 with
              | c2 :: rest4 =>
                if isDateSep c2 then
                  let r3run := rest4.takeWhile isDigitChar
                  let r3 := rest4.dropWhile isDigitChar
                  (lenChoices 2 4 r3run.length).findSome? (fun k3 =>
                    if endBoundaryAfterWord (r3run.drop k3 ++ r3) then
                      some (k1 + 1 + k2 + 1 + k3)
                    else none)
                else none
              | [] => none
            match withYear with
            | some n => some n
            | none =>
              if endBoundaryAfterWord rest3 then some (k1 + 1 + k2) else none)
        else none
      | [] => none)

/-- Positional matcher (length only) for the title-stripping ISO pattern
`\b\d{4}[\/\-]\d{1,2}[\/\-]\d{1,2}\b`. -/
def matchTitleIsoAt (prev : Option Char) (s : List Char) : Option Nat :=
  (matchIsoUnAt prev s).map (fun r => r.2.2.2)

/-- Positional matcher (length only) for the month-name title-stripping
pattern (the `optYear` month pattern with all groups ignored). -/
def matchTitleMonthAt (prev : Option Char) (s : List Char) : Option Nat :=
  (matchMonthAt MonthMode.optYear prev s).map (fun m => m.len)

/-- Department prefixes of the hardcoded title-stripping pattern
`\b(econ|eco|math|mis|bus|acc|fin|mkt|mgmt)\s*\d{3}\b` (alternation order). -/
def deptAlts : List (List Char) :=
  [ ("econ".data), ("eco".data), ("math".data), ("mis".data), ("bus".data)
  , ("acc".data), ("fin".data), ("mkt".data), ("mgmt".data) ]

/-- Positional matcher (length only) for the department course-code
title-stripping pattern (case-insensitive). -/
def matchDeptCodeAt (prev : Option Char) (s : List Char) : Option Nat :=
  if !boundaryBefore prev then none
  else
    deptAlts.findSome? (fun form =>
      match stripCIP s form with
      | none => none
      | some r1 =>
        let ws := r1.takeWhile isSpaceChar
        let r2 := r1.dropWhile isSpaceChar
        let drun := r2.takeWhile isDigitChar
        let r3 := r2.dropWhile isDigitChar
        if drun.length ≥ 3 ∧ endBoundaryAfterWord (drun.drop 3 ++ r3) then
          some (form.length + ws.length + 3)
        else none)

/-- Positional matcher for the course-code pattern
`\b([A-Za-z]{2,6})\s*(\d{2,4})\b`; returns the raw matched substring
(letters, any whitespace between, digits), i.e. `codeMatch[0]`. -/
def matchClassTokenAt (prev : Option Char) (s : List Char) : Option (List Char) :=
  if !boundaryBefore prev then none
  else
    let lrun := s.takeWhile isLetterChar
    let r1 := s.dropWhile isLetterChar
    (lenChoices 2 6 lrun.length).findSome? (fun k1 =>
      let rest1 := lrun.drop k1 ++ r1
      let ws := rest1.takeWhile isSpaceChar
      let r2 := rest1.dropWhile isSpaceChar
      let drun := r2.takeWhile isDigitChar
      let r3 := r2.dropWhile isDigitChar
      (lenChoices 2 4 drun.length).findSome? (fun k2 =>
        if endBoundaryAfterWord (drun.drop k2 ++ r3) then
          some (lrun.take k1 ++ ws ++ drun.take k2)
        else none))

/-! ### Anchored date patterns of the tabular parser's `parseDate` -/

/-- Full-string matcher for `^(\d{4})-(\d{1,2})-(\d{1,2})$`. -/
def matchIsoAnchored (s : List Char) : Option (List Char × List Char × List Char) :=
  let y := s.takeWhile isDigitChar
  let r1 := s.dropWhile isDigitChar
  if y.length = 4 then
    match r1 with
    | '-' :: r2 =>
      let m := r2.takeWhile isDigitChar
      let r3 := r2.dropWhile isDigitChar
      if 1 ≤ m.length ∧ m.length ≤ 2 then
        match r3 with
        | '-' :: r4 =>
          let d := r4.takeWhile isDigitChar
          let r5 := r4.dropWhile isDigitChar
          if (1 ≤ d.length ∧ d.length ≤ 2) ∧ r5 = [] then some (y, m, d) else none
        | _ => none
      else none
    | _ => none
  else none

/-- Full-string matcher for `^(\d{1,2})[\/\-](\d{1,2})[\/\-](\d{2,4})$`. -/
def matchUsAnchored (s : List Char) : Option (List Char × List Char × List Char) :=
  let m := s.takeWhile isDigitChar
  let r1 := s.dropWhile isDigitChar
  if 1 ≤ m.length ∧ m.length ≤ 2 then
    match r1 with
    | c1 :: r2 =>
      if isDateSep c1 then
        let d := r2.takeWhile isDigitChar
        let r3 := r2.dropWhile isDigitChar
        if 1 ≤ d.length ∧ d.length ≤ 2 then
          match r3 with
          | c2 :: r4 =>
            if isDateSep c2 then
              let y := r4.takeWhile isDigitChar
              let r5 := r4.dropWhile isDigitChar
              if (2 ≤ y.length ∧ y.length ≤ 4) ∧ r5 = [] then some (m, d, y) else none
            else none
          | [] => none
        else none
      else none
    | [] => none
  else none

/-- Full-string matcher for `^(\d{1,2})[\/\-](\d{1,2})$`. -/
def matchUsShortAnchored (s : List Char) : Option (List Char × List Char) :=
  let m := s.takeWhile isDigitChar
  let r1 := s.dropWhile isDigitChar
  if 1 ≤ m.length ∧ m.length ≤ 2 then
    match r1 with
    | c1 :: r2 =>
      if isDateSep c1 then
        let d := r2.takeWhile isDigitChar
        let r3 := r2.dropWhile isDigitChar
        if (1 ≤ d.length ∧ d.length ≤ 2) ∧ r3 = [] then some (m, d) else none
      else none
    | [] => none
  else none

/-! ### The two date extractors -/

/-- Embedding of `parseDate` from src/lib/spreadsheet-parser.ts: anchored ISO,
anchored US (2-digit years mapped to 2000+yy), anchored month/day, then the
unanchored month-name pattern with optional year; `currentYear` models
`new Date().getFullYear()`. -/
def parseDate (currentYear : Nat) (value : List Char) : Option (List Char) :=
  if trimStr value = [] then none
  else
    let str := trimStr value
    match matchIsoAnchored str with
    | some (y, m, d) => some (y ++ [ '-' ] ++ pad2 m ++ [ '-' ] ++ pad2 d)
    | none =>
    match matchUsAnchored str with
    | some (m, d, y) =>
      let yearN := natOfDigits y
      let yearN := if yearN < 100 then yearN + 2000 else yearN
      some (natChars yearN ++ [ '-' ] ++ pad2 m ++ [ '-' ] ++ pad2 d)
    | none =>
    match matchUsShortAnchored str with
    | some (m, d) =>
      some (natChars currentYear ++ [ '-' ] ++ pad2 m ++ [ '-' ] ++ pad2 d)
    | none =>
    match findScan (matchMonthAt MonthMode.optYear) str with
    | some mm =>
      let m := mm.midx + 1
      let d := pad2 mm.dayRaw
      let y := match mm.yearRaw with
               | some yr => yr
               | none => natChars currentYear
      some (y ++ [ '-' ] ++ pad2 (natChars m) ++ [ '-' ] ++ d)
    | none => none

/-- Embedding of the free-text `extractDate` (AddAssignment component): tries,
in order, month-day-year, month-day, full numeric date, short numeric date,
then unanchored ISO; `currentYear` models `new Date().getFullYear()`. -/
def extractDate (currentYear : Nat) (text : List Char) : Option (List Char) :=
  match findScan (matchMonthAt MonthMode.reqYear) text with
  | some mm =>
    let month := mm.midx
    let day := natOfDigits mm.dayRaw
    let year := natOfDigits (mm.yearRaw.getD [])
    some (natChars year ++ [ '-' ] ++ pad2 (natChars (month + 1)) ++ [ '-' ]
          ++ pad2 (natChars day))
  | none =>
  match findScan (matchMonthAt MonthMode.noYear) text with
  | some mm =>
    let month := mm.midx
    let day := natOfDigits mm.dayRaw
    let year := if month < 6 then currentYear else currentYear
    some (natChars year ++ [ '-' ] ++ pad2 (natChars (month + 1)) ++ [ '-' ]
          ++ pad2 (natChars day))
  | none =>
  match findScan matchSlashFullAt text with
  | some (m, d, y, _) =>
    let month := natOfDigits m
    let day := natOfDigits d
    let yearN := natOfDigits y
    let yearN := if yearN < 100 then yearN + 2000 else yearN
    some (natChars yearN ++ [ '-' ] ++ pad2 (natChars month) ++ [ '-' ]
          ++ pad2 (natChars day))
  | none =>
  match findScan matchSlashShortAt text with
  | some (m, d, _) =>
    some (natChars currentYear ++ [ '-' ] ++ pad2 (natChars (natOfDigits m))
          ++ [ '-' ] ++ pad2 (natChars (natOfDigits d)))
  | none =>
  match findScan matchIsoUnAt text with
  | some (y, m, d, _) => some (y ++ [ '-' ] ++ pad2 m ++ [ '-' ] ++ pad2 d)
  | none => none

/-! ## Data model (src/lib/data.ts) -/

/-- The closed `ItemType` enum. -/
inductive ItemType where
  | assignment
  | quiz
  | exam
  | project
  | lecture
  | homework
deriving DecidableEq

/-- The string value of an `ItemType` (its TS union-literal spelling). -/
def itemTypeChars : ItemType → List Char
  | ItemType.assignment => ("assignment".data)
  | ItemType.quiz => ("quiz".data)
  | ItemType.exam => ("exam".data)
  | ItemType.project => ("project".data)
  | ItemType.lecture => ("lecture".data)
  | ItemType.homework => ("homework".data)

/-- The closed `ItemStatus` enum. -/
inductive ItemStatus where
  | notStarted
  | inProgress
  | completed
deriving DecidableEq

/-- `AcademicItem` (grading metadata that the import pipeline never sets is
omitted; the TS field `class` is spelled `className` since `class` is a Lean
keyword). -/
structure AcademicItem where
  id : List Char
  title : List Char
  className : List Char
  classCode : List Char
  type : ItemType
  status : ItemStatus
  dueDate : List Char
  time : Option (List Char)
  semesterId : Option (List Char)
deriving DecidableEq

/-- `ClassInfo`. -/
structure ClassInfo where
  code : List Char
  name : List Char
  color : List Char
  hasLatePenalty : Bool
  killSwitch : Option (List Char)
deriving DecidableEq

/-- One grade-weight cell `{ weight, label }`; JS float literals are modelled
as the exact rationals they denote in the source text. -/
structure GradeWeight where
  weight : Rat
  label : List Char
deriving DecidableEq

/-- `Semester`; `gradeWeights` (a JS object keyed by class code) is modelled
as an insertion-ordered association list. -/
structure Semester where
  id : List Char
  name : List Char
  startDate : List Char
  endDate : List Char
  classes : List ClassInfo
  gradeWeights : List (List Char × List (List Char × GradeWeight))
deriving DecidableEq

/-- Ambient impure values consumed by the import pipeline, passed explicitly:
`today` is `new Date().toISOString().slice(0, 10)`, `todayPlus120` is the same
for `Date.now() + 120 * 24 * 60 * 60 * 1000`, `year` is
`new Date().getFullYear()`, `now` is `Date.now()` rendered as a string, and
`rand n` is the value of the n-th `Math.random().toString(36).slice(2, 9)`
call (indexed here by the row counter of the call site). -/
structure Env where
  today : List Char
  todayPlus120 : List Char
  year : Nat
  now : List Char
  rand : Nat → List Char

/-! ## Tabular parser (src/lib/spreadsheet-parser.ts) -/

/-- The round-robin color palette `COLORS`. -/
def COLORS : List (List Char) :=
  [ ("bg-chart-1".data), ("bg-chart-2".data), ("bg-chart-3".data)
  , ("bg-chart-4".data), ("bg-chart-5".data) ]

/-- The `TYPE_MAP` keyword table (source order). -/
def TYPE_MAP : List (List Char × ItemType) :=
  [ (("assignment".data), ItemType.assignment)
  , (("assignments".data), ItemType.assignment)
  , (("hw".data), ItemType.homework)
  , (("homework".data), ItemType.homework)
  , (("quiz".data), ItemType.quiz)
  , (("quizzes".data), ItemType.quiz)
  , (("exam".data), ItemType.exam)
  , (("exams".data), ItemType.exam)
  , (("final".data), ItemType.exam)
  , (("midterm".data), ItemType.exam)
  , (("project".data), ItemType.project)
  , (("projects".data), ItemType.project)
  , (("lecture".data), ItemType.lecture)
  , (("lectures".data), ItemType.lecture)
  , (("reading".data), ItemType.lecture) ]

/-- `normalizeType`: lowercase-trim the cell and look it up, defaulting to
`assignment`. -/
def normalizeType (value : List Char) : ItemType :=
  let key := lowerStr (trimStr value)
  match TYPE_MAP.find? (fun e => e.1 = key) with
  | some e => e.2
  | none => ItemType.assignment

/-- `detectDelimiter`: tab if the header line contains one, else comma. -/
def detectDelimiter (firstLine : List Char) : Char :=
  if firstLine.any (fun c => c = '\t') then '\t' else ','

/-- `ParseResult`. -/
structure ParseResult where
  items : List AcademicItem
  classes : List ClassInfo
deriving DecidableEq

/-- The non-blank trimmed lines
(`text.split(/\r?\n/).map(l => l.trim()).filter(Boolean)`). -/
def linesOf (text : List Char) : List (List Char) :=
  ((splitNL text).map trimStr).filter (fun l => l ≠ [])

/-- The `col` helper of `parseSpreadsheet`: first synonym that hits a header
cell, where a hit is mutual substring containment
(`h.includes(name) || name.includes(h)`); `none` models the `-1` sentinel. -/
def colLookup (headers : List (List Char)) (names : List (List Char)) : Option Nat :=
  names.findSome? (fun name =>
    headers.findIdx? (fun h => containsSub h name || containsSub name h))

/-- The resolved column mapping. -/
structure ColMap where
  classCol : Nat
  titleCol : Nat
  dateCol : Nat
  typeCol : Option Nat
  timeCol : Option Nat

/-- Class-cell resolution for row `i`: a `" - "` separator at positive index
splits code and name; otherwise the cell is whitespace-stripped and
uppercased, an empty result synthesizing the `CLASS-<i>` placeholder. -/
def resolveClass (classRaw : List Char) (i : Nat) : List Char × List Char :=
  let elseBranch : List Char × List Char :=
    let code0 := upperStr (stripWs classRaw)
    let code := if code0 ≠ [] then code0 else ("CLASS-".data) ++ natChars i
    (code, if classRaw ≠ [] then classRaw else code)
  match indexOfSub classRaw (" - ".data) with
  | some dash =>
    if 0 < dash then
      let code := trimStr (classRaw.take dash)
      let nm := trimStr (classRaw.drop (dash + 3))
      (code, if nm ≠ [] then nm else code)
    else elseBranch
  | none => elseBranch

/-- The data-row loop of `parseSpreadsheet` (`for i = 1; i < lines.length`):
`i` is the 1-based line index, `cmap` the insertion-ordered class map whose
size is the source's `colorIndex`. -/
def parseRowsAux (today : List Char) (now : List Char) (rand : Nat → List Char)
    (currentYear : Nat) (delim : Char) (cm : ColMap) :
    List (List Char) → Nat → List ClassInfo → (List AcademicItem × List ClassInfo)
  | [], _, cmap => ([], cmap)
  | line :: rest, i, cmap =>
    let cells := (splitOnChar delim line).map trimStr
    let classRaw := cells.getD cm.classCol []
    let titleRaw := cells.getD cm.titleCol []
    let dateRaw := cells.getD cm.dateCol []
    if titleRaw = [] ∧ classRaw = [] then
      parseRowsAux today now rand currentYear delim cm rest (i + 1) cmap
    else
      let rc := resolveClass classRaw i
      let classCode := rc.1
      let className := rc.2
      let cmap' :=
        if (cmap.find? (fun c => c.code = classCode)).isSome then cmap
        else cmap ++ [ClassInfo.mk classCode className
               (COLORS.getD (cmap.length % COLORS.length) []) false none]
      let dueDate := (parseDate currentYear dateRaw).getD today
      let ty := match cm.typeCol with
        | some t => if cells.getD t [] ≠ [] then normalizeType (cells.getD t [])
                    else ItemType.assignment
        | none => ItemType.assignment
      let time := match cm.timeCol with
        | some t => if cells.getD t [] ≠ [] then some (cells.getD t []) else none
        | none => none
      let item := AcademicItem.mk
        (("imported-".data) ++ now ++ [ '-' ] ++ natChars i ++ [ '-' ] ++ rand i)
        (if titleRaw ≠ [] then titleRaw
         else itemTypeChars ty ++ [ ' ' ] ++ natChars i)
        className classCode ty ItemStatus.notStarted dueDate time none
      let r := parseRowsAux today now rand currentYear delim cm rest (i + 1) cmap'
      (item :: r.1, r.2)

/-- Embedding of `parseSpreadsheet`. -/
def parseSpreadsheet (env : Env) (text : List Char) : ParseResult :=
  let lines := linesOf text
  if h : lines.length < 2 then ParseResult.mk [] []
  else
    let l0 := lines.get ⟨0, by omega⟩
    let delimiter := detectDelimiter l0
    let headers := (splitOnChar delimiter l0).map (fun hd => lowerStr (trimStr hd))
    let classCol := (colLookup headers [("class".data), ("course".data), ("subject".data)]).getD 0
    let titleCol := (colLookup headers [("title".data), ("name".data), ("assignment".data)]).getD 1
    let typeCol := colLookup headers [("type".data), ("category".data)]
    let dateCol := (colLookup headers [("due date".data), ("due".data), ("date".data)]).getD 2
    let timeCol := colLookup headers [("time".data)]
    let cm := ColMap.mk classCol titleCol dateCol typeCol timeCol
    let r := parseRowsAux env.today env.now env.rand env.year delimiter cm
               (lines.drop 1) 1 []
    ParseResult.mk r.1 r.2

/-! ## Free-text parser ("Smart Paste", AddAssignment component) -/

/-- `typePriority`: urgency rank per type (1 = exam highest … 6 = lecture
lowest), exactly as in the source table. -/
def typePriority : ItemType → Nat
  | ItemType.exam => 1
  | ItemType.project => 2
  | ItemType.quiz => 3
  | ItemType.assignment => 4
  | ItemType.homework => 5
  | ItemType.lecture => 6

/-- `typeKeywords` in `Object.entries` (insertion) order. -/
def typeKeywords : List (ItemType × List (List Char)) :=
  [ (ItemType.exam, [("final exam".data), ("final".data), ("midterm".data), ("exam".data), ("test".data)])
  , (ItemType.quiz, [("quiz".data), ("assessment".data), ("skill quiz".data)])
  , (ItemType.project, [("project".data), ("presentation".data), ("paper".data), ("report".data), ("lab project".data)])
  , (ItemType.assignment, [("assignment".data), ("due".data), ("submit".data), ("submission".data)])
  , (ItemType.homework, [("homework".data), ("hw".data), ("problem set".data), ("ps".data), ("exercises".data)])
  , (ItemType.lecture, [("lecture".data), ("class".data), ("chapter".data), ("ch.".data), ("reading".data)]) ]

/-- `detectType`: first type (in keyword-table order) one of whose keywords is
a substring of the lowercased line; default `assignment`. -/
def detectType (text : List Char) : ItemType × Nat :=
  let lowerText := lowerStr text
  match typeKeywords.find? (fun tk => tk.2.any (fun kw => containsSub lowerText kw)) with
  | some tk => (tk.1, typePriority tk.1)
  | none => (ItemType.assignment, typePriority ItemType.assignment)

/-- Code normalization used by the class-code resolver:
`.toUpperCase().replace(/\s+/g, "")`. -/
def normalizeCode (s : List Char) : List Char :=
  stripWs (upperStr s)

/-- The raw course-code token the resolver's regex finds in a line, if any
(`codeMatch[0]`). -/
def firstClassToken (text : List Char) : Option (List Char) :=
  findScan matchClassTokenAt text

/-- Embedding of `extractClassCode`: find a course-code token, normalize it,
and resolve it against the known class list by normalized-code equality; a
token with no known match yields `none` (as does a token-less line). -/
def extractClassCode (text : List Char) (classes : List ClassInfo) :
    Option (List Char × List Char) :=
  match firstClassToken text with
  | some tok =>
    let normalized := normalizeCode tok
    match classes.find? (fun c => normalizeCode c.code = normalized) with
    | some ci => some (ci.code, ci.name)
    | none => none
  | none => none

/-- Separator punctuation trimmed from title edges (`[\-\|\t,.:]`). -/
def isSepPunct (c : Char) : Bool :=
  c = '-' || c = '|' || c = '\t' || c = ',' || c = '.' || c = ':'

/-- Worker for `title.replace(/\s{2,}/g, " ")`: the flag records whether the
scan is inside a whitespace run already collapsed to one emitted space.
Structural on fuel; every step consumes at least one character, so fuel equal
to the input length never runs out. -/
def collapseWsF : Nat → Bool → List Char → List Char
  | 0, _, l => l
  | _ + 1, true, [] => []
  | fuel + 1, true, c :: cs =>
    if isSpaceChar c then collapseWsF fuel true cs
    else c :: collapseWsF fuel false cs
  | _ + 1, false, [] => []
  | _ + 1, false, [c] => [c]
  | fuel + 1, false, c :: d :: ds =>
    if isSpaceChar c then
      if isSpaceChar d then ' ' :: collapseWsF fuel true ds
      else c :: collapseWsF fuel false (d :: ds)
    else c :: collapseWsF fuel false (d :: ds)

/-- `title.replace(/\s{2,}/g, " ")`: collapse runs of two or more whitespace
characters to a single space (a lone whitespace character is kept as-is). -/
def collapseWs (s : List Char) : List Char :=
  collapseWsF s.length false s

/-- The title derivation of the free-text parser: strip every matched date
pattern and hardcoded department course code, trim, strip separator
punctuation from both ends, collapse internal whitespace, and trim again. -/
def stripTitle (line : List Char) : List Char :=
  let t1 := replaceScan matchTitleMonthAt line
  let t2 := replaceScan matchTitleNumericAt t1
  let t3 := replaceScan matchTitleIsoAt t2
  let t4 := replaceScan matchDeptCodeAt t3
  let t5 := trimStr t4
  let t6 := t5.dropWhile isSepPunct
  let t7 := (t6.reverse.dropWhile isSepPunct).reverse
  trimStr (collapseWs t7)

/-- A candidate record of the free-text parser (the fields `ParsedItem`
actually receives in the source; `class` is spelled `className`). -/
structure ParsedItem where
  title : List Char
  type : ItemType
  priority : Nat
  classCode : List Char
  className : List Char
  dueDate : List Char
  status : ItemStatus
  note : Option (List Char)
deriving DecidableEq

/-- The header/separator skip test of the free-text line loop. -/
def headerLike (line : List Char) : Bool :=
  let lowerLine := lowerStr line
  (containsSub lowerLine ("date".data) && containsSub lowerLine ("class".data)) ||
  (containsSub lowerLine ("date".data) && containsSub lowerLine ("type".data)) ||
  startsWith lowerLine ("---".data) || startsWith lowerLine ("===".data)

/-- Capitalized type name used as a fallback title
(`type.charAt(0).toUpperCase() + type.slice(1)`). -/
def capitalizeType (ty : ItemType) : List Char :=
  match itemTypeChars ty with
  | [] => []
  | c :: cs => upperChar c :: cs

/-- The per-line loop of `parseTextToAssignments`, producing candidates in
input-line order (before the priority sort). -/
def parseTextLinesAux (currentYear : Nat) (today : List Char)
    (classes : List ClassInfo) : List (List Char) → List ParsedItem
  | [] => []
  | line :: rest =>
    if headerLike line then parseTextLinesAux currentYear today classes rest
    else
      let detectedDate := extractDate currentYear line
      let classResult := extractClassCode line classes
      let dt := detectType line
      let title0 := stripTitle line
      -- `detectedType` is one of the nonempty type strings, hence always
      -- truthy, so `title.length <= 2 && detectedType` is just the length test
      let title := if title0.length ≤ 2 then capitalizeType dt.1 else title0
      if title ≠ [] then
        ParsedItem.mk title dt.1 dt.2
          ((classResult.map (fun r => r.1)).getD [])
          ((classResult.map (fun r => r.2)).getD [])
          (detectedDate.getD today)
          ItemStatus.notStarted
          (if (classResult.map (fun r => r.1)) = some ("MIS180".data) then
             some ("Final is mandatory to pass".data)
           else none)
        :: parseTextLinesAux currentYear today classes rest
      else parseTextLinesAux currentYear today classes rest

/-- The comparator key `(a.priority || 99)` of the final sort. -/
def sortKeyP (it : ParsedItem) : Nat :=
  if it.priority = 0 then 99 else it.priority

/-- Stable insertion of `x` after every element of no greater key. -/
def insertByKey (key : α → Nat) (x : α) : List α → List α
  | [] => [x]
  | y :: ys => if key y ≤ key x then y :: insertByKey key x ys else x :: y :: ys

/-- Stable ascending sort by `key`; `Array.prototype.sort` is stable (ES2019),
and the stable sort by a comparator is the unique permutation that is sorted
with equal-key elements in input order, which this insertion sort computes. -/
def sortByKey (key : α → Nat) (l : List α) : List α :=
  l.foldl (fun acc x => insertByKey key x acc) []

/-- The candidate list of `parseTextToAssignments` in input-line order, just
before the final priority sort: split on `"\n"`, keep lines with nonempty trim
(untrimmed), process each line. -/
def parseTextRaw (env : Env) (text : List Char)
    (classes : List ClassInfo) : List ParsedItem :=
  parseTextLinesAux env.year env.today classes
    ((splitOnChar '\n' text).filter (fun l => trimStr l ≠ []))

/-- Embedding of `parseTextToAssignments`: the per-line candidates, sorted by
priority. -/
def parseTextToAssignments (env : Env) (text : List Char)
    (classes : List ClassInfo) : List ParsedItem :=
  sortByKey sortKeyP (parseTextRaw env text classes)

/-! ## Import merge (src/components/import-data.tsx, handleImport) -/

/-- The two import modes. -/
inductive ImportMode where
  | replace
  | add
deriving DecidableEq

/-- The argument tuple `handleImport` passes to its `onImport` callback. -/
structure OnImportCall where
  items : List AcademicItem
  classes : List ClassInfo
  semester : Semester
  mode : ImportMode
  updatedSemesters : Option (List Semester)
deriving DecidableEq

/-- Outcome of `handleImport`: a user-surfaced error message (`setError`), or
an `onImport` call. -/
inductive ImportOutcome where
  | error (msg : List Char)
  | ok (call : OnImportCall)
deriving DecidableEq

/-- The default grade-weight table attached to every class of a freshly
created semester. -/
def defaultWeightTable : List (List Char × GradeWeight) :=
  [ (("exam".data), GradeWeight.mk 0.4 ("Exams".data))
  , (("final".data), GradeWeight.mk 0.25 ("Final Exam".data))
  , (("hw".data), GradeWeight.mk 0.15 ("Homework".data))
  , (("quiz".data), GradeWeight.mk 0.1 ("Quizzes".data))
  , (("project".data), GradeWeight.mk 0.1 ("Projects".data)) ]

/-- The fresh semester built by `handleImport` before branching on the mode
(`Object.fromEntries` over the deduplicated parsed classes is an ordered
association list). -/
def freshSemester (env : Env) (classes : List ClassInfo) : Semester :=
  Semester.mk (("semester-".data) ++ env.now) ("My Semester".data)
    env.today env.todayPlus120 classes
    (classes.map (fun c => (c.code, defaultWeightTable)))

/-- The class-merge loop of add mode: walk the parsed classes, appending each
whose exact code is not yet in the seen set (seeded with the target semester's
codes). -/
def mergeClassesAux : List ClassInfo → List (List Char) → List ClassInfo → List ClassInfo
  | acc, _, [] => acc
  | acc, seen, cls :: rest =>
    if cls.code ∈ seen then mergeClassesAux acc seen rest
    else mergeClassesAux (acc ++ [cls]) (seen ++ [cls.code]) rest

/-- Add-mode class merge: target-semester classes first, then parsed classes
with new codes in input order. -/
def mergeClasses (existing parsed : List ClassInfo) : List ClassInfo :=
  mergeClassesAux existing (existing.map (fun c => c.code)) parsed

/-- The empty-input error message. -/
def errEmptyMsg : List Char :=
  ("Please paste your spreadsheet data first.".data)

/-- The zero-yield error message. -/
def errNoRowsMsg : List Char :=
  ("No valid rows found. Make sure your data has a header row and at least one row of assignments. Use Tab or comma to separate columns.".data)

/-- Embedding of `handleImport`: the empty-paste check, the parse, the
zero-yield check, then either the add-mode merge (when in add mode with a
nonempty semester collection and a truthy current-semester id) or the
replace-mode call with a fresh semester. -/
def handleImport (env : Env) (mode : ImportMode)
    (existingItems : List AcademicItem) (existingSemesters : List Semester)
    (currentSemesterId : List Char) (pasteText : List Char) : ImportOutcome :=
  if trimStr pasteText = [] then ImportOutcome.error errEmptyMsg
  else
    let r := parseSpreadsheet env pasteText
    if r.items = [] then ImportOutcome.error errNoRowsMsg
    else
      let semester := freshSemester env r.classes
      let itemsWithSemester := r.items.map
        (fun it => { it with semesterId := some semester.id })
      if h : mode = ImportMode.add ∧ 0 < existingSemesters.length ∧
             currentSemesterId ≠ [] then
        let targetSemesterId := currentSemesterId
        let currentSem :=
          match existingSemesters.find? (fun s => s.id = targetSemesterId) with
          | some s => s
          | none => existingSemesters.get ⟨0, h.2.1⟩
        let mergedClasses := mergeClasses currentSem.classes r.classes
        let mergedItems := existingItems ++ itemsWithSemester.map
          (fun it => { it with semesterId := some targetSemesterId })
        let updatedSemester := { currentSem with classes := mergedClasses }
        let updatedSemesters := existingSemesters.map
          (fun s => if s.id = targetSemesterId then updatedSemester else s)
        ImportOutcome.ok (OnImportCall.mk mergedItems mergedClasses
          updatedSemester ImportMode.add (some updatedSemesters))
      else
        ImportOutcome.ok (OnImportCall.mk itemsWithSemester r.classes semester
          ImportMode.replace none)

/-! ## Accessors and specification-side definitions -/

/-- The mode of a successful `handleImport` outcome. -/
def outcomeMode : ImportOutcome → Option ImportMode
  | ImportOutcome.error _ => none
  | ImportOutcome.ok c => some c.mode

/-- The item list of a successful `handleImport` outcome. -/
def outcomeItems : ImportOutcome → Option (List AcademicItem)
  | ImportOutcome.error _ => none
  | ImportOutcome.ok c => some c.items

/-- Whether an outcome is a user-surfaced error. -/
def outcomeIsError : ImportOutcome → Bool
  | ImportOutcome.error _ => true
  | ImportOutcome.ok _ => false

/-- An item with its generated id blanked (for comparing parser outputs up to
the id field). -/
def eraseId (it : AcademicItem) : AcademicItem :=
  { it with id := [] }

/-- Is a list ascending with respect to a numeric key? -/
def isSortedAscBy (key : α → Nat) : List α → Bool
  | [] => true
  | [_] => true
  | x :: y :: rest => decide (key x ≤ key y) && isSortedAscBy key (y :: rest)

/-- Modelled from the spec: days in a month of the proleptic Gregorian
calendar (for the spec-side notion of a "valid calendar date"). -/
def daysInMonth (y m : Nat) : Nat :=
  if m = 2 then (if (y % 4 = 0 ∧ y % 100 ≠ 0) ∨ y % 400 = 0 then 29 else 28)
  else if m = 4 ∨ m = 6 ∨ m = 9 ∨ m = 11 then 30
  else 31

/-- Modelled from the spec: the claim-side predicate "parses as a valid
calendar date in ISO `YYYY-MM-DD` form" (four digit year, two digit month
1–12, two digit day within the month). -/
def isValidISODate (s : List Char) : Bool :=
  match s with
  | [y1, y2, y3, y4, s1, m1, m2, s2, d1, d2] =>
    ([y1, y2, y3, y4].all isDigitChar && [m1, m2].all isDigitChar
      && [d1, d2].all isDigitChar && s1 = '-' && s2 = '-')
    && (let y := natOfDigits [y1, y2, y3, y4]
        let m := natOfDigits [m1, m2]
        let d := natOfDigits [d1, d2]
        decide (1 ≤ m ∧ m ≤ 12 ∧ 1 ≤ d ∧ d ≤ daysInMonth y m))
  | _ => false

/-- Modelled from the spec: the urgency rank order asserted by the claim
(1 = exam, 2 = quiz, 3 = project, 4 = assignment, 5 = homework, 6 = lecture);
note it differs from the source's `typePriority` on quiz and project. -/
def specClaimRank : ItemType → Nat
  | ItemType.exam => 1
  | ItemType.quiz => 2
  | ItemType.project => 3
  | ItemType.assignment => 4
  | ItemType.homework => 5
  | ItemType.lecture => 6

/-- A due date producible by the tabular date extractor (some cell parses to
it). -/
def inParseDateRange (year : Nat) (d : List Char) : Prop :=
  ∃ s, parseDate year s = some d

/-- A due date producible by the free-text date extractor (some line parses to
it). -/
def inExtractDateRange (year : Nat) (d : List Char) : Prop :=
  ∃ s, extractDate year s = some d

/-- A default `AcademicItem` used with `List.getD` / `List.headD` when
evaluating the pipeline on concrete inputs. -/
def dItem : AcademicItem :=
  AcademicItem.mk [] [] [] [] ItemType.assignment ItemStatus.notStarted [] none none

/-- A concrete environment used for evaluating the embedded pipeline on
concrete inputs. -/
def envC : Env :=
  Env.mk ("2026-02-10".data) ("2026-06-10".data) 2026 ("111".data)
    (fun n => ("r".data) ++ natChars n)

/-- A second concrete environment, differing from `envC` only in the
timestamp value. -/
def envC2 : Env :=
  Env.mk ("2026-02-10".data) ("2026-06-10".data) 2026 ("222".data)
    (fun n => ("r".data) ++ natChars n)

/-- A small concrete one-row sheet. -/
def sheetC : List Char :=
  ("Class,Title,Due Date\nMATH101,HW 1,2/15/2026".data)

/-- A concrete sheet whose date cell passes the anchored ISO pattern but is
not a valid calendar date. -/
def badDateSheet : List Char :=
  ("Class,Title,Due Date\nMATH101,HW,2026-13-45".data)

/-- A concrete two-block paste: the header row is repeated before a second
block of data. -/
def dupHeaderSheet : List Char :=
  ("Class\tTitle\tDue Date\nMATH101\tHW 1\t2/15/2026\nClass\tTitle\tDue Date\nCS200\tHW 2\t2/16/2026".data)

/-- A concrete free-text paste: a quiz line followed by a project line. -/
def twoLineText : List Char :=
  ("Quiz 1 MATH101 Feb 15\nProject X MATH101 Feb 16".data)

/-- A concrete pre-existing item. -/
def itemW : AcademicItem :=
  AcademicItem.mk ("old-1".data) ("Old HW".data) ("Algebra".data)
    ("MATH200".data) ItemType.homework ItemStatus.completed ("2026-01-20".data)
    none (some ("my-semester".data))

/-- A concrete pre-existing semester. -/
def semW : Semester :=
  Semester.mk ("my-semester".data) ("My Semester".data) ("2026-01-01".data)
    ("2026-12-31".data)
    [ClassInfo.mk ("MATH200".data) ("Algebra".data) ("bg-chart-1".data) false none]
    []

/-- A class whose code is stored in non-normalized form. -/
def clsA : ClassInfo :=
  ClassInfo.mk ("math 101".data) ("Calculus".data) ("bg-chart-1".data) false none

/-- A parsed class whose normalized code collides with that of `clsA`. -/
def clsB : ClassInfo :=
  ClassInfo.mk ("MATH101".data) ("Calculus I".data) ("bg-chart-2".data) false none

/-- A parsed class with a fresh code. -/
def clsD : ClassInfo :=
  ClassInfo.mk ("CS200".data) ("Programming".data) ("bg-chart-3".data) false none

/-- A known class whose normalized code differs from the token `MATH101`. -/
def classW : ClassInfo :=
  ClassInfo.mk ("ECON330".data) ("Econometrics".data) ("bg-chart-4".data) false none

/-- A concrete sheet whose second data row has an empty class cell and a
nonempty title cell. -/
def emptyClassSheet : List Char :=
  ("Class,Title,Due Date\nMATH101,HW 1,2/15/2026\n,HW 2,2/16/2026".data)

/-- A concrete column mapping (class 0, title 1, date 2, no type or time). -/
def cmW : ColMap :=
  ColMap.mk 0 1 2 none none

/-! ## Helper lemmas: the stable insertion sort -/

theorem sorted_tail (key : α → Nat) (y : α) (ys : List α)
    (h : isSortedAscBy key (y :: ys) = true) : isSortedAscBy key ys = true := by
  cases ys with
  | nil => rfl
  | cons z zs =>
    simp only [isSortedAscBy, Bool.and_eq_true] at h
    exact h.2

theorem sorted_head_le (key : α → Nat) :
    ∀ (ys : List α) (y : α), isSortedAscBy key (y :: ys) = true →
      ∀ z ∈ y :: ys, key y ≤ key z := by
  intro ys
  induction ys with
  | nil =>
    intro y _ z hz
    simp only [List.mem_singleton] at hz
    subst hz
    exact le_refl _
  | cons w ws ih =>
    intro y h z hz
    have h' := h
    simp only [isSortedAscBy, Bool.and_eq_true, decide_eq_true_eq] at h'
    rcases List.mem_cons.mp hz with rfl | hz'
    · exact le_refl _
    · exact le_trans h'.1 (ih w h'.2 z hz')

theorem head?_insertByKey (key : α → Nat) (x : α) (l : List α) (z : α)
    (h : (insertByKey key x l).head? = some z) : z = x ∨ l.head? = some z := by
  cases l with
  | nil =>
    simp only [insertByKey, List.head?] at h
    exact Or.inl (Option.some.inj h).symm
  | cons w ws =>
    by_cases hk : key w ≤ key x
    · simp only [insertByKey, hk, if_pos, List.head?] at h
      exact Or.inr (by simpa [List.head?] using h)
    · simp only [insertByKey, hk, if_neg, List.head?, not_false_iff] at h
      exact Or.inl (Option.some.inj h).symm

theorem insertByKey_sorted (key : α → Nat) (x : α) :
    ∀ l, isSortedAscBy key l = true → isSortedAscBy key (insertByKey key x l) = true := by
  intro l
  induction l with
  | nil => intro _; rfl
  | cons y ys ih =>
    intro h
    have hys := sorted_tail key y ys h
    by_cases hk : key y ≤ key x
    · have hins := ih hys
      cases hI : insertByKey key x ys with
      | nil => simp [insertByKey, hk, hI, isSortedAscBy]
      | cons z zs =>
        have hz : z = x ∨ ys.head? = some z :=
          head?_insertByKey key x ys z (by rw [hI]; rfl)
        have hyz : key y ≤ key z := by
          rcases hz with rfl | hz'
          · exact hk
          · cases ys with
            | nil => simp [List.head?] at hz'
            | cons w ws =>
              simp only [List.head?, Option.some.injEq] at hz'
              subst hz'
              simp only [isSortedAscBy, Bool.and_eq_true, decide_eq_true_eq] at h
              exact h.1
        have hrest : isSortedAscBy key (z :: zs) = true := by rw [← hI]; exact hins
        simp [insertByKey, hk, hI, isSortedAscBy, hyz, hrest]
    · have hxy : key x ≤ key y := le_of_lt (not_le.mp hk)
      simp [insertByKey, hk, isSortedAscBy, hxy, h]

theorem sortfold_sorted (key : α → Nat) :
    ∀ (l acc : List α), isSortedAscBy key acc = true →
      isSortedAscBy key (l.foldl (fun a x => insertByKey key x a) acc) = true := by
  intro l
  induction l with
  | nil => intro acc h; simpa using h
  | cons x xs ih =>
    intro acc h
    simp only [List.foldl_cons]
    exact ih _ (insertByKey_sorted key x acc h)

theorem sortByKey_sorted (key : α → Nat) (l : List α) :
    isSortedAscBy key (sortByKey key l) = true :=
  sortfold_sorted key l [] rfl

theorem filter_insertByKey (key : α → Nat) (p : Nat) (x : α) :
    ∀ l, isSortedAscBy key l = true →
      (insertByKey key x l).filter (fun a => key a == p)
        = l.filter (fun a => key a == p) ++ (if key x == p then [x] else []) := by
  intro l
  induction l with
  | nil =>
    intro _
    by_cases hx : (key x == p) = true <;> simp [insertByKey, List.filter, hx]
  | cons y ys ih =>
    intro h
    by_cases hk : key y ≤ key x
    · have := ih (sorted_tail key y ys h)
      by_cases hy : (key y == p) = true <;>
        simp [insertByKey, hk, List.filter_cons, hy, this]
    · by_cases hx : (key x == p) = true
      · have hxp : key x = p := by simpa using hx
        have hnil : (y :: ys).filter (fun a => key a == p) = [] := by
          rw [List.filter_eq_nil_iff]
          intro z hz
          have hyz := sorted_head_le key ys y h z hz
          have hlt : key x < key z := lt_of_lt_of_le (not_le.mp hk) hyz
          simp only [Nat.beq_eq_true_eq]
          omega
        simp [insertByKey, hk, List.filter_cons, hx, hnil]
      · simp [insertByKey, hk, List.filter_cons, hx]

theorem filter_sortfold (key : α → Nat) (p : Nat) :
    ∀ (l acc : List α), isSortedAscBy key acc = true →
      (l.foldl (fun a x => insertByKey key x a) acc).filter (fun a => key a == p)
        = acc.filter (fun a => key a == p) ++ l.filter (fun a => key a == p) := by
  intro l
  induction l with
  | nil => intro acc _; simp
  | cons x xs ih =>
    intro acc h
    simp only [List.foldl_cons]
    rw [ih _ (insertByKey_sorted key x acc h)]
    rw [filter_insertByKey key p x acc h]
    by_cases hx : (key x == p) = true <;>
      simp [List.filter_cons, hx, List.append_assoc]

theorem sortByKey_filter (key : α → Nat) (p : Nat) (l : List α) :
    (sortByKey key l).filter (fun a => key a == p) = l.filter (fun a => key a == p) := by
  have := filter_sortfold key p l [] rfl
  simpa [sortByKey] using this

theorem mem_insertByKey (key : α → Nat) (x a : α) :
    ∀ l, a ∈ insertByKey key x l ↔ a = x ∨ a ∈ l := by
  intro l
  induction l with
  | nil => simp [insertByKey]
  | cons y ys ih =>
    by_cases hk : key y ≤ key x
    · simp only [insertByKey, hk, if_pos, List.mem_cons, ih]
      tauto
    · simp only [insertByKey, hk, if_neg, not_false_iff, List.mem_cons]
      try tauto

theorem mem_sortfold (key : α → Nat) (a : α) :
    ∀ (l acc : List α), a ∈ l.foldl (fun ac x => insertByKey key x ac) acc ↔
      a ∈ acc ∨ a ∈ l := by
  intro l
  induction l with
  | nil => intro acc; simp
  | cons x xs ih =>
    intro acc
    simp only [List.foldl_cons, ih, mem_insertByKey, List.mem_cons]
    tauto

theorem mem_sortByKey (key : α → Nat) (a : α) (l : List α) :
    a ∈ sortByKey key l ↔ a ∈ l := by
  simp [sortByKey, mem_sortfold]

/-! ## Helper lemmas: the add-mode class merge -/

theorem mergeClassesAux_spec :
    ∀ (parsed acc : List ClassInfo) (seen : List (List Char)),
      seen = acc.map (fun c => c.code) →
      (acc.map (fun c => c.code)).Nodup →
      ((mergeClassesAux acc seen parsed).map (fun c => c.code)).Nodup ∧
      ∃ news, mergeClassesAux acc seen parsed = acc ++ news ∧
        news.Sublist parsed ∧ (∀ c ∈ news, c.code ∉ seen) ∧
        (∀ c ∈ parsed, c.code ∉ seen → c.code ∈ news.map (fun c => c.code)) := by
  intro parsed
  induction parsed with
  | nil =>
    intro acc seen _ hnd
    exact ⟨hnd, [], by simp [mergeClassesAux], List.nil_sublist _, by simp, by simp⟩
  | cons cls rest ih =>
    intro acc seen hseen hnd
    by_cases hmem : cls.code ∈ seen
    · simp only [mergeClassesAux, hmem, if_pos]
      obtain ⟨h1, news, heq, hsub, hnot, hcov⟩ := ih acc seen hseen hnd
      refine ⟨h1, news, heq, hsub.cons _, hnot, ?_⟩
      intro c hc hnin
      rcases List.mem_cons.mp hc with rfl | hc'
      · exact absurd hmem hnin
      · exact hcov c hc' hnin
    · simp only [mergeClassesAux, hmem, if_neg, not_false_iff]
      have hseen' : seen ++ [cls.code] = (acc ++ [cls]).map (fun c => c.code) := by
        simp [hseen]
      have hnd' : ((acc ++ [cls]).map (fun c => c.code)).Nodup := by
        simp only [List.map_append, List.map_cons, List.map_nil]
        rw [List.nodup_append]
        refine ⟨hnd, List.nodup_singleton _, ?_⟩
        intro a ha hb
        simp only [List.mem_singleton] at hb
        subst hb
        exact hmem (hseen ▸ ha)
      obtain ⟨h1, news, heq, hsub, hnot, hcov⟩ :=
        ih (acc ++ [cls]) (seen ++ [cls.code]) hseen' hnd'
      refine ⟨h1, cls :: news, ?_, hsub.cons₂ _, ?_, ?_⟩
      · rw [heq]
        simp
      · intro c hc
        rcases List.mem_cons.mp hc with rfl | hc'
        · exact hmem
        · intro hin
          exact hnot c hc' (by simp [hin])
      · intro c hc hnin
        rcases List.mem_cons.mp hc with rfl | hc'
        · simp
        · by_cases hceq : c.code = cls.code
          · simp [hceq]
          · have hnin' : c.code ∉ seen ++ [cls.code] := by
              intro hin
              rcases List.mem_append.mp hin with h | h
              · exact hnin h
              · exact hceq (by simpa using h)
            have := hcov c hc' hnin'
            simp only [List.map_cons, List.mem_cons]
            exact Or.inr this

/-! ## Helper lemmas: due-date totality of both parsers -/

theorem parseRowsAux_dueDate (today now : List Char) (rand : Nat → List Char)
    (year : Nat) (delim : Char) (cm : ColMap) :
    ∀ (lines : List (List Char)) (i : Nat) (cmap : List ClassInfo)
      (it : AcademicItem),
      it ∈ (parseRowsAux today now rand year delim cm lines i cmap).1 →
      it.dueDate = today ∨ inParseDateRange year it.dueDate := by
  intro lines
  induction lines with
  | nil =>
    intro i cmap it h
    simp [parseRowsAux] at h
  | cons line rest ih =>
    intro i cmap it h
    simp only [parseRowsAux] at h
    split at h
    · exact ih _ _ it h
    · rcases List.mem_cons.mp h with rfl | h'
      · show (parseDate year (((splitOnChar delim line).map trimStr).getD cm.dateCol [])).getD today
            = today ∨ inParseDateRange year
              ((parseDate year (((splitOnChar delim line).map trimStr).getD cm.dateCol [])).getD today)
        cases hd : parseDate year (((splitOnChar delim line).map trimStr).getD cm.dateCol []) with
        | none => left; rfl
        | some d =>
          right
          refine ⟨((splitOnChar delim line).map trimStr).getD cm.dateCol [], ?_⟩
          rw [hd]
          rfl
      · exact ih _ _ it h'

theorem parseSpreadsheet_dueDate (env : Env) (text : List Char)
    (it : AcademicItem) (h : it ∈ (parseSpreadsheet env text).items) :
    it.dueDate = env.today ∨ inParseDateRange env.year it.dueDate := by
  simp only [parseSpreadsheet] at h
  split at h
  · simp at h
  · exact parseRowsAux_dueDate env.today env.now env.rand env.year _ _ _ _ _ it h

theorem parseTextLinesAux_dueDate (year : Nat) (today : List Char)
    (classes : List ClassInfo) :
    ∀ (lines : List (List Char)) (it : ParsedItem),
      it ∈ parseTextLinesAux year today classes lines →
      it.dueDate = today ∨ inExtractDateRange year it.dueDate := by
  intro lines
  induction lines with
  | nil =>
    intro it h
    simp [parseTextLinesAux] at h
  | cons line rest ih =>
    intro it h
    simp only [parseTextLinesAux] at h
    have hsub : ∀ (x : ParsedItem), x.dueDate = (extractDate year line).getD today →
        it ∈ x :: parseTextLinesAux year today classes rest →
        it.dueDate = today ∨ inExtractDateRange year it.dueDate := by
      intro x hx hmem
      rcases List.mem_cons.mp hmem with rfl | h'
      · rw [hx]
        cases hd : extractDate year line with
        | none => left; rfl
        | some d =>
          right
          exact ⟨line, by simp [hd]⟩
      · exact ih it h'
    split at h
    · exact ih it h
    · split at h
      · split at h
        · exact hsub _ rfl h
        · exact ih it h
      · split at h
        · exact hsub _ rfl h
        · exact ih it h

theorem parseTextToAssignments_dueDate (env : Env) (text : List Char)
    (classes : List ClassInfo) (it : ParsedItem)
    (h : it ∈ parseTextToAssignments env text classes) :
    it.dueDate = env.today ∨ inExtractDateRange env.year it.dueDate := by
  rw [parseTextToAssignments, mem_sortByKey] at h
  exact parseTextLinesAux_dueDate env.year env.today classes _ it h

/-! ## Helper lemmas: parser output is id-independent of timestamp and
randomness -/

theorem parseRowsAux_eraseId (today : List Char) (now1 now2 : List Char)
    (rand1 rand2 : Nat → List Char) (year : Nat) (delim : Char) (cm : ColMap) :
    ∀ (lines : List (List Char)) (i : Nat) (cmap : List ClassInfo),
      ((parseRowsAux today now1 rand1 year delim cm lines i cmap).1.map eraseId
        = (parseRowsAux today now2 rand2 year delim cm lines i cmap).1.map eraseId)
      ∧ (parseRowsAux today now1 rand1 year delim cm lines i cmap).2
        = (parseRowsAux today now2 rand2 year delim cm lines i cmap).2 := by
  intro lines
  induction lines with
  | nil => intro i cmap; exact ⟨rfl, rfl⟩
  | cons line rest ih =>
    intro i cmap
    simp only [parseRowsAux]
    split
    · exact ih _ _
    · constructor
      · simp only [List.map_cons]
        rw [(ih _ _).1]
        congr 1
      · exact (ih _ _).2

/-! ## Claim theorems -/

/-- Claim C1 (counterexample): invoking the import merge in add mode with an
empty semester collection does not fail with a user-surfaced error; it
silently falls back to a replace-mode import (with a fresh default semester),
contrary to the claim that it "never silently falls back to another mode or a
default semester". -/
theorem claim1_counterexample :
    outcomeIsError (handleImport envC ImportMode.add [] [] (("my-semester".data)) sheetC) = false ∧
    outcomeMode (handleImport envC ImportMode.add [] [] (("my-semester".data)) sheetC)
      = some ImportMode.replace := by
  constructor
  · decide
  · decide

/-- Claim C1 (amended): when the import merge is invoked in add mode with an
empty semester collection (and the paste is nonempty and parses to at least
one item), `handleImport` surfaces no error and silently falls back to the
replace branch, returning a freshly created default semester. -/
theorem claim1_theorem (env : Env) (existingItems : List AcademicItem)
    (csid text : List Char) (h3 : trimStr text ≠ [])
    (h4 : (parseSpreadsheet env text).items ≠ []) :
    handleImport env ImportMode.add existingItems [] csid text
      = ImportOutcome.ok (OnImportCall.mk
          ((parseSpreadsheet env text).items.map
            (fun it => { it with
              semesterId := some (freshSemester env (parseSpreadsheet env text).classes).id }))
          (parseSpreadsheet env text).classes
          (freshSemester env (parseSpreadsheet env text).classes)
          ImportMode.replace none) := by
  simp only [handleImport]
  rw [if_neg h3, if_neg h4, dif_neg (by simp)]

/-- Claim C1 (witness): the amended theorem evaluated at a concrete add-mode
call with an empty semester collection. -/
theorem claim1_witness :
    trimStr sheetC ≠ [] ∧ (parseSpreadsheet envC sheetC).items ≠ [] ∧
    handleImport envC ImportMode.add [itemW] [] (("my-semester".data)) sheetC
      = ImportOutcome.ok (OnImportCall.mk
          ((parseSpreadsheet envC sheetC).items.map
            (fun it => { it with
              semesterId := some (freshSemester envC (parseSpreadsheet envC sheetC).classes).id }))
          (parseSpreadsheet envC sheetC).classes
          (freshSemester envC (parseSpreadsheet envC sheetC).classes)
          ImportMode.replace none) :=
  ⟨by decide, by decide,
    claim1_theorem envC [itemW] (("my-semester".data)) sheetC (by decide) (by decide)⟩

/-- Claim C2 (counterexample): the import pipeline can emit a `dueDate` that
is not a valid calendar date — the date cell `2026-13-45` passes the anchored
ISO pattern unvalidated and is emitted verbatim (month 13, day 45). -/
theorem claim2_counterexample :
    ((parseSpreadsheet envC badDateSheet).items.map (fun it => it.dueDate))
      = [("2026-13-45".data)] ∧
    isValidISODate ("2026-13-45".data) = false := by
  constructor
  · decide
  · decide

/-- Claim C2 (amended): every item emitted by either parser has a `dueDate`
that is never missing: it is exactly today's date (the fallback when no date
can be extracted) or a value produced by the respective date extractor —
but no calendar-range validation is performed. -/
theorem claim2_theorem :
    (∀ (env : Env) (text : List Char) (it : AcademicItem),
       it ∈ (parseSpreadsheet env text).items →
       it.dueDate = env.today ∨ inParseDateRange env.year it.dueDate) ∧
    (∀ (env : Env) (text : List Char) (classes : List ClassInfo) (it : ParsedItem),
       it ∈ parseTextToAssignments env text classes →
       it.dueDate = env.today ∨ inExtractDateRange env.year it.dueDate) :=
  ⟨parseSpreadsheet_dueDate, parseTextToAssignments_dueDate⟩

/-- Claim C2 (witness): the amended theorem evaluated at a concrete sheet's
first emitted item. -/
theorem claim2_witness :
    ((parseSpreadsheet envC sheetC).items.getD 0 dItem).dueDate = envC.today ∨
      inParseDateRange envC.year
        ((parseSpreadsheet envC sheetC).items.getD 0 dItem).dueDate :=
  claim2_theorem.1 envC sheetC _ (by decide)

/-- Claim C3 (counterexample): on a line containing the token `MATH101` with
an empty known-class list, the resolver returns no class at all (`none`), not
the raw normalized token as both code and name as the claim asserts. -/
theorem claim3_counterexample :
    firstClassToken ("MATH101 homework".data) = some ("MATH101".data) ∧
    extractClassCode ("MATH101 homework".data) [] = none ∧
    extractClassCode ("MATH101 homework".data) []
      ≠ some (("MATH101".data), ("MATH101".data)) := by
  refine ⟨by decide, by decide, by decide⟩

/-- Claim C3 (amended): when the class-code resolver finds a token whose
normalized (uppercased, whitespace-stripped) form matches no known class, it
returns `none` — the caller treats the line as having an empty class; only a
token matching a known class yields a code/name pair. -/
theorem claim3_theorem (text : List Char) (classes : List ClassInfo)
    (tok : List Char) (hf : firstClassToken text = some tok)
    (hn : classes.find? (fun c => normalizeCode c.code = normalizeCode tok) = none) :
    extractClassCode text classes = none := by
  simp only [extractClassCode, hf, hn]

/-- Claim C3 (witness): the amended theorem evaluated at a concrete line and
known-class list. -/
theorem claim3_witness :
    firstClassToken ("MATH101 hw".data) = some ("MATH101".data) ∧
    [classW].find? (fun c => normalizeCode c.code = normalizeCode ("MATH101".data)) = none ∧
    extractClassCode ("MATH101 hw".data) [classW] = none :=
  ⟨by decide, by decide,
    claim3_theorem ("MATH101 hw".data) [classW] ("MATH101".data) (by decide) (by decide)⟩

/-- Claim C4 (code bug evaluated): on a paste containing a repeated header
row, `parseSpreadsheet` does not treat the repeated header as a new header
boundary — it emits a spurious data item for the header row itself (title
cell `Title`, synthesized class code `CLASS`), keeping the original column
mapping, although the surrounding UI promises "Paste multiple sheets at once —
separate with blank lines or repeated header rows". -/
theorem claim4_theorem :
    (parseSpreadsheet envC dupHeaderSheet).items.length = 3 ∧
    ((parseSpreadsheet envC dupHeaderSheet).items.getD 1 dItem).title = ("Title".data) ∧
    ((parseSpreadsheet envC dupHeaderSheet).items.getD 1 dItem).classCode = ("CLASS".data) := by
  refine ⟨by decide, by decide, by decide⟩

/-- Claim C5 (counterexample): a quiz line followed by a project line is
returned as project-then-quiz (the source ranks project 2 and quiz 3), so the
output is not sorted by the claimed rank order (1 = exam, 2 = quiz,
3 = project, …), which would demand the quiz first. -/
theorem claim5_counterexample :
    ((parseTextToAssignments envC twoLineText []).map (fun it => it.type))
      = [ItemType.project, ItemType.quiz] ∧
    isSortedAscBy (fun it => specClaimRank it.type)
      (parseTextToAssignments envC twoLineText []) = false := by
  constructor
  · decide
  · decide

/-- Claim C5 (amended): `parseTextToAssignments` returns its candidates
sorted ascending by the source's `typePriority` rank (1 = exam, 2 = project,
3 = quiz, 4 = assignment, 5 = homework, 6 = lecture, via the comparator key
`priority || 99`), with ties broken by original input order: for every rank,
the equal-rank candidates appear exactly as in the pre-sort candidate list. -/
theorem claim5_theorem (env : Env) (text : List Char) (classes : List ClassInfo) :
    isSortedAscBy sortKeyP (parseTextToAssignments env text classes) = true ∧
    ∀ p : Nat, (parseTextToAssignments env text classes).filter (fun it => sortKeyP it == p)
      = (parseTextRaw env text classes).filter (fun it => sortKeyP it == p) :=
  ⟨sortByKey_sorted sortKeyP _, fun p => sortByKey_filter sortKeyP p _⟩

/-- Claim C6 (counterexample): two runs of `parseSpreadsheet` on the same
text differing only in the ambient timestamp produce different outputs — the
generated item ids embed `Date.now()` (and a `Math.random()` value), so
outputs are not identical "including item ids". -/
theorem claim6_counterexample :
    parseSpreadsheet envC sheetC ≠ parseSpreadsheet envC2 sheetC := by
  decide

/-- Claim C6 (amended): both parsers are deterministic functions of the text,
the class list, and the current date; the timestamp and randomness influence
only the generated item ids: two `parseSpreadsheet` runs agree on all items
up to the id field and on the class list, and `parseTextToAssignments`
(which generates no ids) is entirely independent of them. -/
theorem claim6_theorem :
    (∀ (today tp : List Char) (y : Nat) (n1 n2 : List Char)
       (r1 r2 : Nat → List Char) (text : List Char),
       ((parseSpreadsheet (Env.mk today tp y n1 r1) text).items.map eraseId
         = (parseSpreadsheet (Env.mk today tp y n2 r2) text).items.map eraseId)
       ∧ (parseSpreadsheet (Env.mk today tp y n1 r1) text).classes
         = (parseSpreadsheet (Env.mk today tp y n2 r2) text).classes) ∧
    (∀ (today tp : List Char) (y : Nat) (n1 n2 : List Char)
       (r1 r2 : Nat → List Char) (text : List Char) (classes : List ClassInfo),
       parseTextToAssignments (Env.mk today tp y n1 r1) text classes
         = parseTextToAssignments (Env.mk today tp y n2 r2) text classes) := by
  constructor
  · intro today tp y n1 n2 r1 r2 text
    simp only [parseSpreadsheet]
    split
    · exact ⟨rfl, rfl⟩
    · exact parseRowsAux_eraseId today n1 n2 r1 r2 y _ _ _ _ _
  · intro today tp y n1 n2 r1 r2 text classes
    rfl

/-- Claim C7: in add mode (with a nonempty semester collection, a truthy
current-semester id, a nonempty paste, and a nonempty parse), the merged item
list is exactly the pre-existing items, unchanged and in order, followed by
the newly parsed items stamped with the target semester id; its length is the
sum of the two counts.  (Input collections are never mutated: the embedding
is of a function building new lists with spreads only.) -/
theorem claim7_theorem (env : Env) (existingItems : List AcademicItem)
    (existingSemesters : List Semester) (csid text : List Char)
    (h1 : existingSemesters ≠ []) (h2 : csid ≠ [])
    (h3 : trimStr text ≠ []) (h4 : (parseSpreadsheet env text).items ≠ []) :
    outcomeItems (handleImport env ImportMode.add existingItems existingSemesters csid text)
      = some (existingItems ++ (parseSpreadsheet env text).items.map
          (fun (it : AcademicItem) => { it with semesterId := some csid })) ∧
    (existingItems ++ (parseSpreadsheet env text).items.map
        (fun (it : AcademicItem) => { it with semesterId := some csid })).length
      = existingItems.length + (parseSpreadsheet env text).items.length := by
  constructor
  · simp only [handleImport]
    rw [if_neg h3, if_neg h4, dif_pos ⟨trivial, List.length_pos.mpr h1, h2⟩]
    simp only [outcomeItems, Option.some.injEq]
    rw [List.map_map]
    rfl
  · simp

/-- Claim C7 (witness): the theorem evaluated at a concrete add-mode call. -/
theorem claim7_witness :
    outcomeItems (handleImport envC ImportMode.add [itemW] [semW] (("my-semester".data)) sheetC)
      = some ([itemW] ++ (parseSpreadsheet envC sheetC).items.map
          (fun (it : AcademicItem) => { it with semesterId := some (("my-semester".data)) })) :=
  (claim7_theorem envC [itemW] [semW] (("my-semester".data)) sheetC
    (by decide) (by decide) (by decide) (by decide)).1

/-- Claim C8 (counterexample): class deduplication is by exact code equality,
not by normalized code — merging a parsed class with code `MATH101` into a
target semester whose (unique-by-code) class list holds code `math 101`
keeps both, which share the same normalized code. -/
theorem claim8_counterexample :
    ([clsA].map (fun c => c.code)).Nodup ∧
    ([clsA].map (fun c => normalizeCode c.code)).Nodup ∧
    mergeClasses [clsA] [clsB] = [clsA, clsB] ∧
    ¬ ((mergeClasses [clsA] [clsB]).map (fun c => normalizeCode c.code)).Nodup := by
  refine ⟨by decide, by decide, by decide, by decide⟩

/-- Claim C8 (amended): when the target semester's class list is unique by
exact code, the add-mode merged class list has pairwise distinct exact codes;
it is the target classes followed by appended new entries that form a sublist
of the parsed list (input order preserved), every appended entry has a code
not present in the target semester (a parsed class whose exact code already
exists is dropped — the existing entry wins), and every parsed class whose
exact code is new to the target semester does get its code appended. -/
theorem claim8_theorem (existing parsed : List ClassInfo)
    (h : (existing.map (fun c => c.code)).Nodup) :
    ((mergeClasses existing parsed).map (fun c => c.code)).Nodup ∧
    ∃ news, mergeClasses existing parsed = existing ++ news ∧
      news.Sublist parsed ∧
      (∀ c ∈ news, c.code ∉ existing.map (fun c => c.code)) ∧
      (∀ c ∈ parsed, c.code ∉ existing.map (fun c => c.code) →
        c.code ∈ news.map (fun c => c.code)) := by
  have hspec := mergeClassesAux_spec parsed existing
    (existing.map (fun c => c.code)) rfl h
  simpa [mergeClasses] using hspec

/-- Claim C8 (witness): the theorem evaluated at a concrete merge. -/
theorem claim8_witness :
    ((mergeClasses [clsB] [clsD]).map (fun c => c.code)).Nodup :=
  (claim8_theorem [clsB] [clsD] (by decide)).1

/-- Claim C9 (counterexample): a data row with a nonempty title cell and an
empty class cell is kept, but it is given the synthesized placeholder code
`CLASS-2` (row index 2), not an empty class code as the claim asserts. -/
theorem claim9_counterexample :
    ((parseSpreadsheet envC emptyClassSheet).items.map
        (fun it => (it.title, it.classCode, it.className)))
      = [ (("HW 1".data), ("MATH101".data), ("MATH101".data))
        , (("HW 2".data), ("CLASS-2".data), ("CLASS-2".data)) ] ∧
    ((parseSpreadsheet envC emptyClassSheet).items.getD 1 dItem).classCode ≠ [] := by
  refine ⟨by decide, by decide⟩

/-- Claim C9 (amended): a data row whose title cell is nonempty and whose
class cell is empty is kept (not dropped), and both its class code and class
name are the synthesized placeholder `CLASS-<i>` for its 1-based line index
`i` (the field degrades to a placeholder rather than staying empty). -/
theorem claim9_theorem (today now : List Char) (rand : Nat → List Char)
    (year : Nat) (delim : Char) (cm : ColMap) (line : List Char)
    (ls : List (List Char)) (i : Nat) (cmap : List ClassInfo)
    (hclass : ((splitOnChar delim line).map trimStr).getD cm.classCol [] = [])
    (htitle : ((splitOnChar delim line).map trimStr).getD cm.titleCol [] ≠ []) :
    (parseRowsAux today now rand year delim cm (line :: ls) i cmap).1 ≠ [] ∧
    ((parseRowsAux today now rand year delim cm (line :: ls) i cmap).1.headD dItem).classCode
      = ("CLASS-".data) ++ natChars i ∧
    ((parseRowsAux today now rand year delim cm (line :: ls) i cmap).1.headD dItem).className
      = ("CLASS-".data) ++ natChars i := by
  have hres : resolveClass [] i
      = (("CLASS-".data) ++ natChars i, ("CLASS-".data) ++ natChars i) := by
    simp [resolveClass, indexOfSub, startsWith, stripWs, upperStr]
  simp only [parseRowsAux, hclass]
  rw [if_neg (by intro hcon; exact htitle hcon.1)]
  refine ⟨by simp, ?_, ?_⟩
  · simp [hres]
  · simp [hres]

/-- Claim C9 (witness): the theorem evaluated at a concrete row with an empty
class cell. -/
theorem claim9_witness :
    (parseRowsAux (("2026-02-10".data)) (("111".data)) (fun n => ("r".data) ++ natChars n)
        2026 ',' cmW [(",HW 2,2/16/2026".data)] 2 []).1 ≠ [] ∧
    ((parseRowsAux (("2026-02-10".data)) (("111".data)) (fun n => ("r".data) ++ natChars n)
        2026 ',' cmW [(",HW 2,2/16/2026".data)] 2 []).1.headD dItem).classCode
      = ("CLASS-".data) ++ natChars 2 ∧
    ((parseRowsAux (("2026-02-10".data)) (("111".data)) (fun n => ("r".data) ++ natChars n)
        2026 ',' cmW [(",HW 2,2/16/2026".data)] 2 []).1.headD dItem).className
      = ("CLASS-".data) ++ natChars 2 :=
  claim9_theorem (("2026-02-10".data)) (("111".data)) (fun n => ("r".data) ++ natChars n)
    2026 ',' cmW (",HW 2,2/16/2026".data) [] 2 [] (by decide) (by decide)

/-- Claim C10: `parseSpreadsheet` is a total function (the embedding is a
terminating Lean function, so it returns normally on every input), and on any
input with fewer than two non-blank trimmed lines — blank or whitespace-only
input included — it returns exactly the empty result. -/
theorem claim10_theorem (env : Env) (text : List Char)
    (h : (linesOf text).length < 2) :
    parseSpreadsheet env text = ParseResult.mk [] [] := by
  simp only [parseSpreadsheet]
  rw [dif_pos h]

/-- Claim C10 (witness): the theorem evaluated at a one-data-line input with
a trailing whitespace-only line. -/
theorem claim10_witness :
    (linesOf ("MATH101,HW,2/15\n   ".data)).length < 2 ∧
    parseSpreadsheet envC ("MATH101,HW,2/15\n   ".data) = ParseResult.mk [] [] :=
  ⟨by decide, claim10_theorem envC ("MATH101,HW,2/15\n   ".data) (by decide)⟩

end Tracker
